import Mathlib

/-!
# Verification of the eBay account-deletion handler

Shallow embedding of `src/index.js` (an Express/Mongoose service that
receives marketplace account-deletion webhooks, persists them, and purges
matching user data across all MongoDB collections), together with proofs
and refutations of the specification's claims about it.

Modelling conventions:

* MongoDB documents are modelled as records with one optional field per
  identity-bearing path that the engine's `$or` query inspects
  (`userId`, `user.id`, `user._id`, `username`, `user.username`,
  `eiasToken`, `ebayUserId`, `ebayUsername`), plus the fields of the
  service's own log/notification documents.
* The database is a list of named collections; `listCollections`
  enumerates them in order, and queries/deletes act per collection.
* Mongoose derives collection names by lowercasing and pluralising the
  model name, so model `DeletionLog` lives in collection `deletionlogs`
  and model `DeletionNotification` in `deletionnotifications` — the
  source itself relies on these names in `createIndexes`
  (`listCollections({ name: 'deletionnotifications' })`, line 360, and
  `listCollections({ name: 'deletionlogs' })`, line 388).
* Fallible store operations are driven by an explicit environment `Env`
  naming which collections' finds/deletes throw and whether the two
  `save()` calls throw; a thrown operation is the per-collection
  `catch` path of the source.
* `crypto.createHash('sha256')` followed by a sequence of `update`
  calls and `digest('hex')` is the lowercase-hex SHA-256 digest of the
  concatenated update inputs; SHA-256 itself is embedded executably
  below (FIPS 180-4) over UTF-8 bytes, with machine words as `Nat`
  reduced `% 2^32`.
-/

/-! ## SHA-256 (FIPS 180-4), executable over byte lists -/

/-- Reduce a natural number to a 32-bit machine word. -/
def w32 (n : Nat) : Nat := n % 4294967296

/-- Rotate a 32-bit word right by `n` bits. -/
def rotr (n x : Nat) : Nat := w32 ((x >>> n) ||| (x <<< (32 - n)))

/-- Big sigma-0 of SHA-256. -/
def bigSigma0 (x : Nat) : Nat := (rotr 2 x) ^^^ (rotr 13 x) ^^^ (rotr 22 x)

/-- Big sigma-1 of SHA-256. -/
def bigSigma1 (x : Nat) : Nat := (rotr 6 x) ^^^ (rotr 11 x) ^^^ (rotr 25 x)

/-- Small sigma-0 of SHA-256. -/
def smallSigma0 (x : Nat) : Nat := (rotr 7 x) ^^^ (rotr 18 x) ^^^ (x >>> 3)

/-- Small sigma-1 of SHA-256. -/
def smallSigma1 (x : Nat) : Nat := (rotr 17 x) ^^^ (rotr 19 x) ^^^ (x >>> 10)

/-- Choice function of SHA-256 (bitwise not over 32-bit words). -/
def chFn (x y z : Nat) : Nat := (x &&& y) ^^^ ((4294967295 ^^^ x) &&& z)

/-- Majority function of SHA-256. -/
def majFn (x y z : Nat) : Nat := (x &&& y) ^^^ (x &&& z) ^^^ (y &&& z)

/-- The 64 SHA-256 round constants. -/
def K256 : List Nat :=
  [1116352408, 1899447441, 3049323471, 3921009573,
   961987163, 1508970993, 2453635748, 2870763221,
   3624381080, 310598401, 607225278, 1426881987,
   1925078388, 2162078206, 2614888103, 3248222580,
   3835390401, 4022224774, 264347078, 604807628,
   770255983, 1249150122, 1555081692, 1996064986,
   2554220882, 2821834349, 2952996808, 3210313671,
   3336571891, 3584528711, 113926993, 338241895,
   666307205, 773529912, 1294757372, 1396182291,
   1695183700, 1986661051, 2177026350, 2456956037,
   2730485921, 2820302411, 3259730800, 3345764771,
   3516065817, 3600352804, 4094571909, 275423344,
   430227734, 506948616, 659060556, 883997877,
   958139571, 1322822218, 1537002063, 1747873779,
   1955562222, 2024104815, 2227730452, 2361852424,
   2428436474, 2756734187, 3204031479, 3329325298]

/-- The eight working variables of the SHA-256 compression function. -/
structure Hash8 where
  a : Nat
  b : Nat
  c : Nat
  d : Nat
  e : Nat
  f : Nat
  g : Nat
  h : Nat
deriving DecidableEq

/-- SHA-256 initial hash value. -/
def initH : Hash8 :=
  ⟨1779033703, 3144134277, 1013904242, 2773480762, 1359893119, 2600822924, 528734635, 1541459225⟩

/-- Group big-endian bytes into 32-bit words. -/
def bytesToWords : List Nat → List Nat
  | b0 :: b1 :: b2 :: b3 :: rest =>
      w32 ((b0 <<< 24) ||| (b1 <<< 16) ||| (b2 <<< 8) ||| b3) :: bytesToWords rest
  | _ => []

/-- Extend the message schedule, keeping the words most-recent-first. -/
def scheduleAux : Nat → List Nat → List Nat
  | 0, wRev => wRev
  | n + 1, wRev =>
      let t := w32 (smallSigma1 (wRev.getD 1 0) + wRev.getD 6 0 +
                    smallSigma0 (wRev.getD 14 0) + wRev.getD 15 0)
      scheduleAux n (t :: wRev)

/-- The 64-word message schedule of one block. -/
def schedule (w16 : List Nat) : List Nat := (scheduleAux 48 w16.reverse).reverse

/-- One round of the SHA-256 compression function. -/
def compressStep (st : Hash8) (kw : Nat × Nat) : Hash8 :=
  let t1 := w32 (st.h + bigSigma1 st.e + chFn st.e st.f st.g + kw.1 + kw.2)
  let t2 := w32 (bigSigma0 st.a + majFn st.a st.b st.c)
  ⟨w32 (t1 + t2), st.a, st.b, st.c, w32 (st.d + t1), st.e, st.f, st.g⟩

/-- Compress one 64-byte block into the running hash state. -/
def compressBlock (st : Hash8) (block : List Nat) : Hash8 :=
  let ws := schedule (bytesToWords block)
  let r := (K256.zip ws).foldl compressStep st
  ⟨w32 (st.a + r.a), w32 (st.b + r.b), w32 (st.c + r.c), w32 (st.d + r.d),
   w32 (st.e + r.e), w32 (st.f + r.f), w32 (st.g + r.g), w32 (st.h + r.h)⟩

/-- A 64-bit length as eight big-endian bytes. -/
def lenBytes64 (bits : Nat) : List Nat :=
  [(bits >>> 56) &&& 255, (bits >>> 48) &&& 255, (bits >>> 40) &&& 255, (bits >>> 32) &&& 255,
   (bits >>> 24) &&& 255, (bits >>> 16) &&& 255, (bits >>> 8) &&& 255, bits &&& 255]

/-- SHA-256 padding: 0x80, zeros to 56 mod 64, then the bit length. -/
def padMessage (msg : List Nat) : List Nat :=
  let L := msg.length
  let k := (120 - ((L + 1) % 64)) % 64
  msg ++ [0x80] ++ List.replicate k 0 ++ lenBytes64 (8 * L)

/-- Split bytes into 64-byte blocks (fuel-driven, structurally recursive). -/
def toBlocksAux : Nat → List Nat → List (List Nat)
  | 0, _ => []
  | _ + 1, [] => []
  | n + 1, b :: bs => ((b :: bs).take 64) :: toBlocksAux n ((b :: bs).drop 64)

/-- The SHA-256 digest of a byte list, as 32 bytes. -/
def sha256 (msg : List Nat) : List Nat :=
  let p := padMessage msg
  let st := (toBlocksAux p.length p).foldl compressBlock initH
  [st.a, st.b, st.c, st.d, st.e, st.f, st.g, st.h].foldr
    (fun w acc => [(w >>> 24) &&& 255, (w >>> 16) &&& 255, (w >>> 8) &&& 255, w &&& 255] ++ acc) []

/-- Lowercase hexadecimal digit for a value below 16. -/
def hexDigitChar (n : Nat) : Char := if n < 10 then Char.ofNat (48 + n) else Char.ofNat (87 + n)

/-- The SHA-256 digest of a byte list rendered as 64 lowercase hex characters,
as `crypto`'s `digest('hex')` renders it. -/
def sha256Hex (msg : List Nat) : String :=
  String.mk ((sha256 msg).foldr (fun b acc => hexDigitChar (b / 16) :: hexDigitChar (b % 16) :: acc) [])

/-- UTF-8 encoding of one character. -/
def utf8Char (c : Char) : List Nat :=
  let n := c.toNat
  if n < 128 then [n]
  else if n < 2048 then [192 ||| (n >>> 6), 128 ||| (n &&& 63)]
  else if n < 65536 then [224 ||| (n >>> 12), 128 ||| ((n >>> 6) &&& 63), 128 ||| (n &&& 63)]
  else [240 ||| (n >>> 18), 128 ||| ((n >>> 12) &&& 63), 128 ||| ((n >>> 6) &&& 63), 128 ||| (n &&& 63)]

/-- UTF-8 bytes of a string, as `hash.update` consumes a JS string. -/
def strBytes (s : String) : List Nat := s.data.foldr (fun c acc => utf8Char c ++ acc) []

/-! ## Data model

The schemas of `src/index.js` lines 14-44, flattened to the fields the
program reads or writes, each optional because MongoDB documents are
schemaless at the store level. -/

/-- The identity triple a deletion notification carries (glossary of the
spec; extracted at `src/index.js` lines 152-154). -/
structure Identity where
  username : String
  userId : String
  eiasToken : String
deriving DecidableEq

/-- The `DeletionLog` status enum (`src/index.js` line 38). -/
inductive Status where
  | started
  | completed
  | failed
  | completed_with_errors
deriving DecidableEq

/-- One structured per-collection error entry
(`deletionStats.errors.push`, `src/index.js` lines 301-304). -/
structure CollError where
  collection : String
  message : String
deriving DecidableEq

/-- The run statistics object (`src/index.js` lines 234-239). -/
structure DeletionStats where
  collectionsScanned : Nat
  documentsDeleted : Nat
  documentsAnonymized : Nat
  errors : List CollError
deriving DecidableEq

/-- A stored document, restricted to the fields the program queries or
writes: the eight identity-bearing paths of the `$or` predicate
(`src/index.js` lines 257-266; `user_id` stands for the path `user.id`
and `user__id` for `user._id`), the `DeletionLog` fields written by the
engine, and the `DeletionNotification` fields written by the handler.
`none` is an absent field. -/
structure Doc where
  userId : Option String := none
  user_id : Option String := none
  user__id : Option String := none
  username : Option String := none
  user_username : Option String := none
  eiasToken : Option String := none
  ebayUserId : Option String := none
  ebayUsername : Option String := none
  status : Option Status := none
  stats : Option DeletionStats := none
  notificationId : Option String := none
  processed : Option Bool := none
  processedDate : Option Nat := none
deriving DecidableEq

/-- A named MongoDB collection. -/
structure Collection where
  name : String
  docs : List Doc
deriving DecidableEq

/-- The database: the collections `listCollections()` enumerates. -/
abbrev Database := List Collection

/-- Failure injection for the store operations the code awaits: which
`save()` calls reject, and the names of the collections whose `find` or
`deleteMany` throws (the per-collection `catch` of `src/index.js`
lines 299-305), with the error message each failure carries. -/
structure Env where
  logSaveFails : Bool
  notifSaveFails : Bool
  queryFails : List String
  deleteFails : List String
  errMsg : String → String

/-! ## Deletion engine (`processUserDeletion`, `src/index.js` lines 207-346) -/

/-- The `$or` identity predicate of `src/index.js` lines 257-269: a
document matches when any of the eight candidate fields equals the
corresponding identity value. -/
def matchesIdentity (ident : Identity) (d : Doc) : Bool :=
  d.userId == some ident.userId ||
  d.user_id == some ident.userId ||
  d.user__id == some ident.userId ||
  d.username == some ident.username ||
  d.user_username == some ident.username ||
  d.eiasToken == some ident.eiasToken ||
  d.ebayUserId == some ident.userId ||
  d.ebayUsername == some ident.username

/-- The skip test of `src/index.js` lines 244-246, verbatim: system
collections and the literal names `DeletionNotifications` and
`DeletionLogs`. -/
def isSkippedName (name : String) : Bool :=
  "system.".data.isPrefixOf name.data || name == "DeletionNotifications" || name == "DeletionLogs"

/-- The `started` log entry the engine saves (`src/index.js`
lines 215-223); mongoose stores the identity triple as top-level
fields of the document. -/
def startLogDoc (ident : Identity) : Doc :=
  { username := some ident.username, userId := some ident.userId,
    eiasToken := some ident.eiasToken, status := some .started }

/-- Insert a document, creating the collection if absent (MongoDB
creates a collection on first insert). -/
def insertDoc (db : Database) (name : String) (d : Doc) : Database :=
  if db.any (fun c => c.name == name) then
    db.map (fun c => if c.name == name then ⟨c.name, c.docs ++ [d]⟩ else c)
  else
    db ++ [⟨name, [d]⟩]

/-- Update the first document satisfying the predicate, as
`findOneAndUpdate` updates the first match in natural order. -/
def updateFirst (p : Doc → Bool) (f : Doc → Doc) : List Doc → List Doc
  | [] => []
  | d :: ds => if p d then f d :: ds else d :: updateFirst p f ds

/-- Apply `updateFirst` inside one named collection of the database. -/
def updateInColl (db : Database) (name : String) (p : Doc → Bool) (f : Doc → Doc) : Database :=
  db.map (fun c => if c.name == name then ⟨c.name, updateFirst p f c.docs⟩ else c)

/-- The filter of the engine's two `DeletionLog.findOneAndUpdate` calls
(`src/index.js` lines 310 and 330): match on `username` and `userId`. -/
def logMatches (ident : Identity) (d : Doc) : Bool :=
  d.username == some ident.username && d.userId == some ident.userId

/-- The engine's final `DeletionLog.findOneAndUpdate`: set the status
(and, on the non-fatal path, the statistics inside `details`) on the
first log document whose `username`/`userId` match the identity. -/
def finalizeLog (db : Database) (ident : Identity) (st : Status)
    (statsOpt : Option DeletionStats) : Database :=
  updateInColl db "deletionlogs" (logMatches ident)
    (fun d => { d with status := some st, stats := statsOpt })

/-- Outcome of one iteration of the collection loop. -/
structure CollOutcome where
  after : Collection
  scanned : Nat
  deleted : Nat
  errs : List CollError
  deletes : List String
deriving DecidableEq

/-- One iteration of the loop of `src/index.js` lines 242-306: skip
excluded names; otherwise count the scan, `find` the matching
documents, and when any match, `deleteMany` them — recording a
structured error and leaving the collection unchanged when the find or
the delete throws. `deletes` records the collections against which a
`deleteMany` was issued. -/
def processColl (ident : Identity) (env : Env) (c : Collection) : CollOutcome :=
  if isSkippedName c.name then ⟨c, 0, 0, [], []⟩
  else if env.queryFails.contains c.name then
    ⟨c, 1, 0, [⟨c.name, env.errMsg c.name⟩], []⟩
  else
    let matched := c.docs.filter (matchesIdentity ident)
    if matched.isEmpty then ⟨c, 1, 0, [], []⟩
    else if env.deleteFails.contains c.name then
      ⟨c, 1, 0, [⟨c.name, env.errMsg c.name⟩], []⟩
    else
      ⟨⟨c.name, c.docs.filter (fun d => !(matchesIdentity ident d))⟩, 1, matched.length, [],
       [c.name]⟩

/-- Result of running the collection loop over the whole database. -/
structure LoopResult where
  db : Database
  stats : DeletionStats
  deletes : List String

/-- The collection loop: process each enumerated collection in order,
accumulating the statistics exactly as `deletionStats` accumulates
(`documentsAnonymized` is initialised to 0 and never incremented — the
anonymisation branch of lines 280-297 is commented out). -/
def runLoop (ident : Identity) (env : Env) : Database → LoopResult
  | [] => ⟨[], ⟨0, 0, 0, []⟩, []⟩
  | c :: cs =>
    let o := processColl ident env c
    let r := runLoop ident env cs
    ⟨o.after :: r.db,
     ⟨o.scanned + r.stats.collectionsScanned, o.deleted + r.stats.documentsDeleted,
      r.stats.documentsAnonymized, o.errs ++ r.stats.errors⟩,
     o.deletes ++ r.deletes⟩

/-- The collections the engine enumerates: `listCollections()` runs
after the `started` log entry was saved into `deletionlogs`
(`src/index.js` line 223 before line 228). -/
def engineCollections (ident : Identity) (db : Database) : Database :=
  insertDoc db "deletionlogs" (startLogDoc ident)

/-- Result of one engine run: the database afterwards, whether the
returned promise resolved (`ok = true`) or rejected, the accumulated
statistics, the terminal status the run wrote (or attempted to write),
and the collections a `deleteMany` was issued against. -/
structure RunResult where
  db : Database
  ok : Bool
  stats : DeletionStats
  writtenStatus : Status
  deletes : List String
deriving DecidableEq

/-- `processUserDeletion` (`src/index.js` lines 207-346): save a
`started` log entry (a rejected save takes the outer `catch`, which
marks the first log matching the identity `failed` and rethrows);
enumerate the collections; run the loop; then `findOneAndUpdate` the
first log matching the identity to `completed` or
`completed_with_errors` with the statistics attached. -/
def processUserDeletion (ident : Identity) (env : Env) (db : Database) : RunResult :=
  if env.logSaveFails then
    { db := finalizeLog db ident .failed none, ok := false,
      stats := ⟨0, 0, 0, []⟩, writtenStatus := .failed, deletes := [] }
  else
    let r := runLoop ident env (engineCollections ident db)
    let st := if r.stats.errors.isEmpty then Status.completed else .completed_with_errors
    { db := finalizeLog r.db ident st (some r.stats), ok := true,
      stats := r.stats, writtenStatus := st, deletes := r.deletes }

/-- The documents stored in the `deletionlogs` collection. -/
def logEntries : Database → List Doc
  | [] => []
  | c :: cs => if c.name == "deletionlogs" then c.docs ++ logEntries cs else logEntries cs

/-- The documents stored in the `deletionnotifications` collection. -/
def notifEntries : Database → List Doc
  | [] => []
  | c :: cs => if c.name == "deletionnotifications" then c.docs ++ notifEntries cs else notifEntries cs

/-! ## HTTP layer (`src/index.js` lines 78-198)

The web framework, body parsing, and config loading are the spec's
external collaborators; the handlers are modelled from the point where
Express hands them a parsed JSON body and string-valued headers. -/

/-- A parsed JSON value as the handler sees `req.body`; `missing` is the
value of an absent property (JS undefined). -/
inductive Js where
  | null
  | missing
  | bool (b : Bool)
  | num (n : Int)
  | str (s : String)
  | arr (xs : List Js)
  | obj (fields : List (String × Js))

/-- Property lookup on a list of object fields. -/
def getF : List (String × Js) → String → Js
  | [], _ => .missing
  | (k', v) :: fs, k => if k' == k then v else getF fs k

/-- JS property access: `undefined` on non-objects and missing keys. -/
def getField : Js → String → Js
  | .obj fs, k => getF fs k
  | _, _ => .missing

/-- JS truthiness of a value. -/
def jsTruthy : Js → Bool
  | .null => false
  | .missing => false
  | .bool b => b
  | .num n => n != 0
  | .str s => s != ""
  | .arr _ => true
  | .obj _ => true

/-- A JS value as a string, when it is one. -/
def asStr : Js → Option String
  | .str s => some s
  | _ => none

/-- The header values the handler reads (`src/index.js` lines 125-129);
`none` is an absent header. -/
structure Headers where
  xEbaySignatureKey : Option String := none
  xEbaySignature : Option String := none
  ebaySignatureKey : Option String := none
  ebaySignature : Option String := none
  authorization : Option String := none

/-- The environment configuration the handlers read: `EBAY_VERIFICATION_TOKEN`
and `EBAY_ENDPOINT_URL` (`src/index.js` lines 47-49); `none` is an unset
variable (`undefined`). -/
structure Config where
  verificationToken : Option String
  endpointUrl : Option String

/-- JS `||` over possibly-absent strings: the first truthy operand wins,
an empty string is falsy. -/
def orJs (a b : Option String) : Option String :=
  match a with
  | some s => if s != "" then some s else b
  | none => b

/-- The header priority chain of `src/index.js` lines 125-129. -/
def requestToken (h : Headers) : Option String :=
  orJs h.xEbaySignatureKey (orJs h.xEbaySignature
    (orJs h.ebaySignatureKey (orJs h.ebaySignature h.authorization)))

/-- Strip a `Bearer ` prefix when the token is truthy and carries one
(`src/index.js` lines 132-134). -/
def cleanToken (t : Option String) : Option String :=
  match t with
  | some s =>
      if s != "" && "Bearer ".data.isPrefixOf s.data then some (String.mk (s.data.drop 7))
      else some s
  | none => none

/-- The warning condition of `src/index.js` lines 136-139:
`VERIFICATION_TOKEN && cleanToken !== VERIFICATION_TOKEN`. A falsy
configured token (unset, or the empty string) short-circuits the whole
check, so nothing is flagged and processing continues. -/
def tokenWarned (cfgToken : Option String) (clean : Option String) : Bool :=
  match cfgToken with
  | some t => if t != "" then clean != some t else false
  | none => false

/-- Response of the GET verification endpoint. -/
structure GetResult where
  status : Nat
  challengeResponse : Option String
deriving DecidableEq

/-- The GET handler of `src/index.js` lines 78-104, for a configured
verification token and endpoint URL (the claims quantify over configured
values): a truthy `challenge_code` query parameter is answered with 200
and the hex SHA-256 of challenge ++ token ++ endpoint, computed by three
consecutive `hash.update` calls; anything else gets 400. An empty string
parameter is falsy in JS, so it takes the 400 branch. -/
def getDeletionEndpoint (challengeCode : Option String) (token url : String) : GetResult :=
  match challengeCode with
  | some c =>
      if c != "" then
        ⟨200, some (sha256Hex (strBytes c ++ strBytes token ++ strBytes url))⟩
      else ⟨400, none⟩
  | none => ⟨400, none⟩

/-- The notification document the handler saves (`src/index.js`
lines 160-169): identity fields, the notification id, and the schema
default `processed: false`. -/
def notifDoc (ident : Identity) (nid : String) : Doc :=
  { username := some ident.username, userId := some ident.userId,
    eiasToken := some ident.eiasToken, notificationId := some nid,
    processed := some false }

/-- The handler's `DeletionNotification.findOneAndUpdate` after the
engine returns (`src/index.js` lines 178-184): mark the first document
with the notification id processed, stamping a date. -/
def markProcessed (db : Database) (nid : String) : Database :=
  updateInColl db "deletionnotifications" (fun d => d.notificationId == some nid)
    (fun d => { d with processed := some true, processedDate := some 0 })

/-- The shape validation of `src/index.js` lines 143-146. -/
def validShape (body : Js) : Bool :=
  jsTruthy (getField body "metadata") &&
  (match getField (getField body "metadata") "topic" with
   | .str s => s == "MARKETPLACE_ACCOUNT_DELETION"
   | _ => false) &&
  jsTruthy (getField body "notification") &&
  jsTruthy (getField (getField body "notification") "data")

/-- Observable outcome of one POST request: the HTTP status sent
(`none` when the handler threw outside its `try` block, so the rejected
async handler never sends a response), the challenge response body field
when one was sent, the database afterwards, whether the invalid-token
warning was logged, and whether the deletion engine was invoked. -/
structure PostResult where
  responseStatus : Option Nat
  challengeResponse : Option String
  db : Database
  warned : Bool
  ranEngine : Bool
deriving DecidableEq

/-- The POST handler of `src/index.js` lines 107-198. A truthy
`challenge` body field is hashed before the `try` block begins; Node's
`hash.update` accepts only strings (and buffers), so a truthy
non-string challenge — or an unset `VERIFICATION_TOKEN`/`ENDPOINT_URL`
fed to `update` — throws there, rejecting the async handler with no
response sent. Otherwise the token warning is computed, and a
well-formed deletion event is saved, run through the engine, and
marked processed, every failure inside the `try` being answered 200.
Identity fields of non-string JSON types would be coerced by mongoose
on save; such payloads are still acknowledged with 200 (as the code
acknowledges every shape), with their store effects outside this
model. -/
def postHandler (cfg : Config) (h : Headers) (body : Js) (env : Env) (db : Database) : PostResult :=
  if jsTruthy body && jsTruthy (getField body "challenge") then
    match getField body "challenge", cfg.verificationToken, cfg.endpointUrl with
    | .str c, some t, some u =>
        { responseStatus := some 200,
          challengeResponse := some (sha256Hex (strBytes c ++ strBytes t ++ strBytes u)),
          db := db, warned := false, ranEngine := false }
    | _, _, _ =>
        { responseStatus := none, challengeResponse := none,
          db := db, warned := false, ranEngine := false }
  else
    let warned := tokenWarned cfg.verificationToken (cleanToken (requestToken h))
    if validShape body then
      match asStr (getField (getField (getField body "notification") "data") "username"),
            asStr (getField (getField (getField body "notification") "data") "userId"),
            asStr (getField (getField (getField body "notification") "data") "eiasToken"),
            asStr (getField (getField body "notification") "notificationId") with
      | some un, some uid, some tok, some nid =>
          if env.notifSaveFails then
            { responseStatus := some 200, challengeResponse := none,
              db := db, warned := warned, ranEngine := false }
          else
            let db1 := insertDoc db "deletionnotifications" (notifDoc ⟨un, uid, tok⟩ nid)
            let r := processUserDeletion ⟨un, uid, tok⟩ env db1
            if r.ok then
              { responseStatus := some 200, challengeResponse := none,
                db := markProcessed r.db nid, warned := warned, ranEngine := true }
            else
              { responseStatus := some 200, challengeResponse := none,
                db := r.db, warned := warned, ranEngine := true }
      | _, _, _, _ =>
          { responseStatus := some 200, challengeResponse := none,
            db := db, warned := warned, ranEngine := false }
    else
      { responseStatus := some 200, challengeResponse := none,
        db := db, warned := warned, ranEngine := false }

/-! ## Concrete fixtures used by the claim theorems -/

/-- A sample identity. -/
def identA : Identity := ⟨"u", "i", "t"⟩

/-- An environment in which every store operation succeeds. -/
def benignEnv : Env := ⟨false, false, [], [], fun _ => "err"⟩

/-- An environment in which only `deleteMany` on `deletionlogs` throws. -/
def envDelLogFails : Env := ⟨false, false, [], ["deletionlogs"], fun _ => "err"⟩

/-- An environment in which saving the `started` log entry rejects. -/
def envLogSaveFails : Env := ⟨true, false, [], [], fun _ => "err"⟩

/-- A fully configured service. -/
def cfgOk : Config := ⟨some "s3cret", some "https://x/y"⟩

/-- A service with `EBAY_VERIFICATION_TOKEN` unset. -/
def cfgNoToken : Config := ⟨none, some "https://x/y"⟩

/-- A request with no verification headers. -/
def noHeaders : Headers := {}

/-- A request presenting a bearer token on the authorization header. -/
def bearerHeaders : Headers := { authorization := some "Bearer letmein" }

/-- A well-formed marketplace account-deletion event for `identA`. -/
def wellFormedBody : Js :=
  Js.obj [
    ("metadata", Js.obj [("topic", Js.str "MARKETPLACE_ACCOUNT_DELETION")]),
    ("notification", Js.obj [
      ("notificationId", Js.str "n1"),
      ("data", Js.obj [
        ("username", Js.str "u"), ("userId", Js.str "i"), ("eiasToken", Js.str "t")])])]

/-- An environment in which only the `find` on `orders` throws. -/
def envQueryFailsOrders : Env := ⟨false, false, ["orders"], [], fun _ => "boom"⟩

/-- A store with one matching document each in `orders` and `posts`. -/
def dbTwoColls : Database :=
  [⟨"orders", [{ userId := some "i" }]⟩, ⟨"posts", [{ username := some "u" }]⟩]

/-! ## Supporting lemmas -/

set_option maxRecDepth 4000

/-- Folding UTF-8 encoding onto an accumulator is appending to the fold
onto nil. -/
theorem strBytes_foldr (l : List Char) (acc : List Nat) :
    l.foldr (fun c a => utf8Char c ++ a) acc =
      l.foldr (fun c a => utf8Char c ++ a) [] ++ acc := by
  induction l with
  | nil => simp
  | cons c l ih => simp [ih, List.append_assoc]

/-- UTF-8 encoding distributes over string concatenation, so hashing one
concatenated string equals hashing the three `update` inputs in turn. -/
theorem strBytes_append (a b : String) : strBytes (a ++ b) = strBytes a ++ strBytes b := by
  have hdata : (a ++ b).data = a.data ++ b.data := by
    cases a; cases b; rfl
  unfold strBytes
  rw [hdata, List.foldr_append, strBytes_foldr]

/-- The loop never touches the `documentsAnonymized` counter. -/
theorem runLoop_anonymized (ident : Identity) (env : Env) :
    ∀ l : Database, (runLoop ident env l).stats.documentsAnonymized = 0
  | [] => rfl
  | c :: cs => by
    simp only [runLoop]
    exact runLoop_anonymized ident env cs

/-! ## Claim theorems -/

/-- C10: for every run of the deletion engine, the `documentsAnonymized`
count in the final statistics equals 0 — the anonymization path of the
source is commented out and no input can select it. -/
theorem documentsAnonymized_always_zero (ident : Identity) (env : Env) (db : Database) :
    (processUserDeletion ident env db).stats.documentsAnonymized = 0 := by
  by_cases h : env.logSaveFails <;>
    simp [processUserDeletion, h, runLoop_anonymized]

/-- C1: the claim fails on the code. The exclusion check compares
collection names against the literals `DeletionNotifications` and
`DeletionLogs`, but the engine's own collections are named
`deletionnotifications` and `deletionlogs` (mongoose lowercases and
pluralises model names, as the source's `createIndexes` itself
witnesses), so the skip never matches them: already on an empty
database, a run saves its `started` log entry into `deletionlogs` and
then issues a `deleteMany` against that very collection. -/
theorem run_issues_delete_against_log_collection :
    (processUserDeletion identA benignEnv []).deletes = ["deletionlogs"] ∧
    isSkippedName "deletionlogs" = false ∧
    isSkippedName "deletionnotifications" = false := by decide

/-- C2: the claim fails on the code. The run on an empty database creates
its one `started` log entry, but then — because the exclusion check
misses the real collection name — deletes it again while scanning
`deletionlogs`, so the run ends (resolving normally) with zero
`DeletionLog` entries: no entry with a terminal status and no recorded
statistics survive. -/
theorem run_leaves_no_log_entry :
    logEntries (processUserDeletion identA benignEnv []).db = [] ∧
    (processUserDeletion identA benignEnv []).ok = true := by decide

/-- C4: the claim fails on the code. Starting from an empty store, a
first run completes; the immediately repeated run reports
`documentsDeleted = 1` rather than 0, because it deletes its own
freshly saved `started` log entry (the exclusion check misses
`deletionlogs`), so the second run's statistics are not all-zero even
though both runs compute the status `completed`. -/
theorem second_run_deletes_one_document :
    (processUserDeletion identA benignEnv
        (processUserDeletion identA benignEnv []).db).stats.documentsDeleted = 1 ∧
    (processUserDeletion identA benignEnv
        (processUserDeletion identA benignEnv []).db).writtenStatus = .completed ∧
    (processUserDeletion identA benignEnv []).writtenStatus = .completed := by decide

/-- C6: the claim fails on the code. A run whose `deleteMany` on
`deletionlogs` throws leaves its own entry behind at the terminal
status `completed_with_errors`; a later run for the same identity whose
`started` save rejects takes the outer catch, whose
`findOneAndUpdate({username, userId})` matches that older entry (not
the failed run's nonexistent one) and rewrites it to `failed` — moving
an entry out of a terminal status. -/
theorem terminal_log_status_overwritten :
    (logEntries (processUserDeletion identA envDelLogFails []).db).map Doc.status
        = [some .completed_with_errors] ∧
    (logEntries (processUserDeletion identA envLogSaveFails
        (processUserDeletion identA envDelLogFails []).db).db).map Doc.status
        = [some .failed] := by decide

/-- C7: the claim fails on the code. A POST body whose `challenge` field
is truthy but not a string — here `5` — reaches `hash.update` before
the handler's `try` block; Node's `update` throws on non-string input,
the async handler rejects, and no response (in particular no 200) is
ever sent. -/
theorem truthy_nonstring_challenge_no_response :
    (postHandler cfgOk noHeaders (Js.obj [("challenge", Js.num 5)]) benignEnv
      []).responseStatus = none := by decide

/-- C8: the claim fails on the code. With `EBAY_VERIFICATION_TOKEN`
unset, the guard `VERIFICATION_TOKEN && cleanToken !== VERIFICATION_TOKEN`
is falsy, so a request presenting an arbitrary bearer token is neither
flagged nor treated as a configuration error: the notification is fully
processed and acknowledged 200 — an automatic, unflagged pass. -/
theorem unset_secret_is_silent_automatic_pass :
    (postHandler cfgNoToken bearerHeaders wellFormedBody benignEnv []).warned = false ∧
    (postHandler cfgNoToken bearerHeaders wellFormedBody benignEnv []).ranEngine = true ∧
    (postHandler cfgNoToken bearerHeaders wellFormedBody benignEnv []).responseStatus
        = some 200 := by decide

/-- C9: the claim fails on the code. For a well-formed, persisted
notification, the engine's scan covers `deletionnotifications`
(the exclusion check misses the real name) and deletes the just-saved
notification, so the subsequent `findOneAndUpdate({notificationId})`
finds nothing: after the handler acknowledges 200, the store holds no
notification at all — in particular none marked `processed = true`. -/
theorem stored_notification_deleted_not_marked :
    (postHandler cfgOk noHeaders wellFormedBody benignEnv []).responseStatus = some 200 ∧
    notifEntries (postHandler cfgOk noHeaders wellFormedBody benignEnv []).db = [] := by decide

/-- C5 counterexample: the claim quantifies over every challenge value,
but for the empty challenge value the GET handler's truthiness test
(`if (challengeCode)`) treats it as absent and answers 400, not 200. -/
theorem empty_challenge_value_rejected :
    (getDeletionEndpoint (some "") "s3cret" "https://x/y").status = 400 ∧
    (getDeletionEndpoint (some "") "s3cret" "https://x/y").status ≠ 200 := by decide

/-- C5 (amended): for every nonempty challenge value and configured
secret and callback URL, both the GET handshake and the POST body
challenge path answer 200 with `challengeResponse` equal to the
lowercase hex SHA-256 digest of the concatenation challenge ++ secret
++ URL, and a GET without `challenge_code` answers 400. -/
theorem handshake_sha256_response (c s u : String) (hc : c ≠ "") :
    (getDeletionEndpoint (some c) s u).status = 200 ∧
    (getDeletionEndpoint (some c) s u).challengeResponse
        = some (sha256Hex (strBytes (c ++ s ++ u))) ∧
    (postHandler ⟨some s, some u⟩ noHeaders (Js.obj [("challenge", Js.str c)]) benignEnv
      []).responseStatus = some 200 ∧
    (postHandler ⟨some s, some u⟩ noHeaders (Js.obj [("challenge", Js.str c)]) benignEnv
      []).challengeResponse = some (sha256Hex (strBytes (c ++ s ++ u))) ∧
    (getDeletionEndpoint none s u).status = 400 := by
  have hb : strBytes (c ++ s ++ u) = strBytes c ++ strBytes s ++ strBytes u := by
    rw [strBytes_append, strBytes_append]
  have hcb : (c != "") = true := by simpa using hc
  refine ⟨?_, ?_, ?_, ?_, rfl⟩
  · simp [getDeletionEndpoint, hcb]
  · simp [getDeletionEndpoint, hcb, hb]
  · simp [postHandler, getField, getF, jsTruthy, hcb]
  · simp [postHandler, getField, getF, jsTruthy, hcb, hb]

/-- Witness for C5's amended theorem: at the spec's concrete instance the
challenge response is the true SHA-256 digest of
`abcs3crethttps://x/y` (cross-checked against an independent SHA-256
implementation). -/
theorem handshake_sha256_response_witness :
    ("abc" : String) ≠ "" ∧
    (getDeletionEndpoint (some "abc") "s3cret" "https://x/y").challengeResponse
        = some "bf12ea5c47262be2881b70a4dd3c57801c75b30a0e2e46f3b9eb3e78b75717e5" := by
  refine ⟨by decide, ?_⟩
  have h := (handshake_sha256_response "abc" "s3cret" "https://x/y" (by decide)).2.1
  rw [h]
  decide

/-! ## Isolation of a single failing collection (C3) -/

/-- A name different from the only allowed member is not contained. -/
theorem contains_eq_false_of_all {l : List String} {f n : String}
    (h : ∀ m ∈ l, m = f) (hn : n ≠ f) : l.contains n = false := by
  cases hc : l.contains n with
  | false => rfl
  | true => exact absurd (h n (List.elem_iff.mp hc)) hn

/-- A collection whose find and delete both succeed records no error. -/
theorem processColl_errs_benign (ident : Identity) (env : Env) (c : Collection)
    (hq : env.queryFails.contains c.name = false)
    (hd : env.deleteFails.contains c.name = false) :
    (processColl ident env c).errs = [] := by
  unfold processColl
  split
  · rfl
  · rw [hq]
    simp only [Bool.false_eq_true, if_false]
    split
    · rfl
    · rw [hd]
      simp only [Bool.false_eq_true, if_false]

/-- A non-skipped collection whose operations succeed ends up with
exactly its non-matching documents. -/
theorem processColl_after_benign (ident : Identity) (env : Env) (c : Collection)
    (hs : isSkippedName c.name = false)
    (hq : env.queryFails.contains c.name = false)
    (hd : env.deleteFails.contains c.name = false) :
    (processColl ident env c).after
      = ⟨c.name, c.docs.filter (fun d => !(matchesIdentity ident d))⟩ := by
  unfold processColl
  rw [hs, hq]
  simp only [Bool.false_eq_true, if_false]
  split
  · next hemp =>
      have h1 : c.docs.filter (matchesIdentity ident) = [] := List.isEmpty_iff.mp hemp
      have h2 : ∀ d ∈ c.docs, matchesIdentity ident d = false := by
        intro d hdmem
        have := List.filter_eq_nil_iff.mp h1 d hdmem
        revert this
        cases matchesIdentity ident d <;> simp
      have h3 : c.docs.filter (fun d => !(matchesIdentity ident d)) = c.docs := by
        apply List.filter_eq_self.mpr
        intro d hdmem
        rw [h2 d hdmem]
        rfl
      rw [h3]
  · rw [hd]
    simp only [Bool.false_eq_true, if_false]

/-- With no document satisfying the filter, `findOneAndUpdate` is a
no-op. -/
theorem updateFirst_eq_of_none (p : Doc → Bool) (f : Doc → Doc) :
    ∀ l : List Doc, (∀ d ∈ l, p d = false) → updateFirst p f l = l
  | [], _ => rfl
  | d :: ds, h => by
      unfold updateFirst
      rw [h d (List.mem_cons_self d ds)]
      simp only [Bool.false_eq_true, if_false]
      rw [updateFirst_eq_of_none p f ds (fun x hx => h x (List.mem_cons_of_mem d hx))]

/-- A log document matching the final-update filter also matches the
identity predicate (its `username` field alone suffices). -/
theorem matchesIdentity_of_logMatches (ident : Identity) (d : Doc)
    (h : logMatches ident d = true) : matchesIdentity ident d = true := by
  unfold logMatches at h
  rw [Bool.and_eq_true] at h
  unfold matchesIdentity
  rw [h.1]
  simp

/-- The loop transforms each enumerated collection independently. -/
theorem runLoop_db_eq (ident : Identity) (env : Env) :
    ∀ l : Database, (runLoop ident env l).db = l.map (fun c => (processColl ident env c).after)
  | [] => rfl
  | c :: cs => by
      simp only [runLoop, List.map_cons]
      rw [runLoop_db_eq ident env cs]

/-- Unfolding one loop iteration of the error accumulator. -/
theorem runLoop_errors_cons (ident : Identity) (env : Env) (c : Collection) (cs : Database) :
    (runLoop ident env (c :: cs)).stats.errors
      = (processColl ident env c).errs ++ (runLoop ident env cs).stats.errors := rfl

/-- The error list accumulates per collection, in enumeration order. -/
theorem runLoop_errors_append (ident : Identity) (env : Env) :
    ∀ l₁ l₂ : Database, (runLoop ident env (l₁ ++ l₂)).stats.errors
      = (runLoop ident env l₁).stats.errors ++ (runLoop ident env l₂).stats.errors
  | [], l₂ => by simp [runLoop]
  | c :: cs, l₂ => by
      rw [List.cons_append, runLoop_errors_cons, runLoop_errors_cons,
        runLoop_errors_append ident env cs l₂, List.append_assoc]

/-- A loop over collections none of which errors records no error. -/
theorem runLoop_errors_nil (ident : Identity) (env : Env) :
    ∀ l : Database, (∀ c ∈ l, (processColl ident env c).errs = []) →
      (runLoop ident env l).stats.errors = []
  | [], _ => rfl
  | c :: cs, h => by
      rw [runLoop_errors_cons, h c (List.mem_cons_self c cs),
        runLoop_errors_nil ident env cs (fun x hx => h x (List.mem_cons_of_mem c hx))]
      rfl

/-- Inserting into a (possibly new) collection preserves distinctness
of collection names. -/
theorem insertDoc_names (db : Database) (n : String) (d : Doc)
    (h : (db.map Collection.name).Nodup) :
    ((insertDoc db n d).map Collection.name).Nodup := by
  unfold insertDoc
  split
  · next hany =>
      have : (db.map (fun c => if c.name == n then (⟨c.name, c.docs ++ [d]⟩ : Collection) else c)).map
          Collection.name = db.map Collection.name := by
        rw [List.map_map]
        apply List.map_congr_left
        intro c _
        simp only [Function.comp]
        split <;> rfl
      rw [this]
      exact h
  · next hany =>
      have hnot : n ∉ db.map Collection.name := by
        intro hmem
        obtain ⟨c, hc, hcn⟩ := List.mem_map.mp hmem
        have : db.any (fun c => c.name == n) = true :=
          List.any_eq_true.mpr ⟨c, hc, by rw [hcn]; exact beq_self_eq_true n⟩
        rw [this] at hany
        exact absurd rfl hany
      rw [List.map_append]
      rw [List.nodup_append]
      refine ⟨h, List.nodup_singleton n, ?_⟩
      intro x hx hx'
      simp only [List.map_cons, List.map_nil, List.mem_singleton] at hx'
      subst hx'
      exact hnot hx

/-- A collection with no document matching the update filter survives
a `findOneAndUpdate` on the store unchanged. -/
theorem mem_updateInColl_of (db : Database) (n : String) (p : Doc → Bool) (g : Doc → Doc)
    (c : Collection) (hc : c ∈ db) (h : ∀ d ∈ c.docs, p d = false) :
    c ∈ updateInColl db n p g := by
  unfold updateInColl
  have heq : (if (c.name == n) = true then (⟨c.name, updateFirst p g c.docs⟩ : Collection) else c)
      = c := by
    split
    · rw [updateFirst_eq_of_none p g c.docs h]
    · rfl
  exact List.mem_map.mpr ⟨c, hc, heq⟩

/-- C3: over any store whose collection names are distinct, if exactly
one collection (by the code's own non-excluded notion) fails — its find
throws, or its delete throws while it holds matching documents — then
the run records exactly the one structured error entry naming that
collection, terminates with status `completed_with_errors`, and every
other non-skipped collection is still fully processed: it ends up with
exactly its non-matching documents. -/
theorem isolation_single_failure
    (ident : Identity) (env : Env) (db : Database) (f : String)
    (hsave : env.logSaveFails = false)
    (hq : ∀ n ∈ env.queryFails, n = f)
    (hd : ∀ n ∈ env.deleteFails, n = f)
    (hskip : isSkippedName f = false)
    (hnodup : (db.map Collection.name).Nodup)
    (hmem : f ∈ (engineCollections ident db).map Collection.name)
    (hthrow : env.queryFails.contains f = true ∨
      (env.deleteFails.contains f = true ∧
       ∀ c ∈ engineCollections ident db, c.name = f →
         c.docs.filter (matchesIdentity ident) ≠ [])) :
    (processUserDeletion ident env db).stats.errors = [⟨f, env.errMsg f⟩] ∧
    (processUserDeletion ident env db).writtenStatus = .completed_with_errors ∧
    ∀ c ∈ engineCollections ident db, c.name ≠ f → isSkippedName c.name = false →
      (⟨c.name, c.docs.filter (fun d => !(matchesIdentity ident d))⟩ : Collection)
        ∈ (processUserDeletion ident env db).db := by
  have hnodup1 : ((engineCollections ident db).map Collection.name).Nodup :=
    insertDoc_names db _ _ hnodup
  obtain ⟨cf, hcfmem, hcfname⟩ := List.mem_map.mp hmem
  obtain ⟨l₁, l₂, hsplit⟩ := List.append_of_mem hcfmem
  have hnames : (engineCollections ident db).map Collection.name
      = l₁.map Collection.name ++ cf.name :: l₂.map Collection.name := by
    rw [hsplit]; simp
  have hn12 : f ∉ l₁.map Collection.name ∧ f ∉ l₂.map Collection.name := by
    rw [hnames, hcfname] at hnodup1
    obtain ⟨h1, h2, h3⟩ := List.nodup_append.mp hnodup1
    exact ⟨fun hx => h3 hx (List.mem_cons_self _ _), (List.nodup_cons.mp h2).1⟩
  have hn1 : ∀ c ∈ l₁, c.name ≠ f := by
    intro c hc he
    exact hn12.1 (he ▸ List.mem_map_of_mem Collection.name hc)
  have hn2 : ∀ c ∈ l₂, c.name ≠ f := by
    intro c hc he
    exact hn12.2 (he ▸ List.mem_map_of_mem Collection.name hc)
  have hother : ∀ c : Collection, c.name ≠ f → (processColl ident env c).errs = [] := by
    intro c hc
    exact processColl_errs_benign ident env c
      (contains_eq_false_of_all hq hc) (contains_eq_false_of_all hd hc)
  have hcferrs : (processColl ident env cf).errs = [⟨f, env.errMsg f⟩] := by
    cases hqf : env.queryFails.contains f with
    | true =>
        have hqf' : f ∈ env.queryFails := List.elem_iff.mp hqf
        simp [processColl, hcfname, hskip, hqf']
    | false =>
        have hqf' : f ∉ env.queryFails := by
          intro hm
          have h1 : env.queryFails.contains f = true := List.elem_iff.mpr hm
          rw [hqf] at h1
          simp at h1
        rcases hthrow with hcase | ⟨hdf, hmatch⟩
        · rw [hqf] at hcase
          simp at hcase
        · have hdf' : f ∈ env.deleteFails := List.elem_iff.mp hdf
          have hne := hmatch cf hcfmem hcfname
          have hnotall : ¬ ∀ a ∈ cf.docs, matchesIdentity ident a = false := by
            intro hall
            exact hne (List.filter_eq_nil_iff.mpr (fun a ha => by simp [hall a ha]))
          simp [processColl, hcfname, hskip, hqf', hdf', hnotall]
  have herrs : (runLoop ident env (engineCollections ident db)).stats.errors
      = [⟨f, env.errMsg f⟩] := by
    rw [hsplit, runLoop_errors_append, runLoop_errors_cons,
      runLoop_errors_nil ident env l₁ (fun c hc => hother c (hn1 c hc)),
      runLoop_errors_nil ident env l₂ (fun c hc => hother c (hn2 c hc)),
      hcferrs]
    rfl
  have hstats : (processUserDeletion ident env db).stats
      = (runLoop ident env (engineCollections ident db)).stats := by
    simp [processUserDeletion, hsave]
  have hnotEmpty : (runLoop ident env (engineCollections ident db)).stats.errors.isEmpty
      = false := by rw [herrs]; rfl
  refine ⟨by rw [hstats]; exact herrs, ?_, ?_⟩
  · simp [processUserDeletion, hsave, hnotEmpty]
  · intro c hcmem hcne hcskip
    have hdb : (processUserDeletion ident env db).db
        = finalizeLog (runLoop ident env (engineCollections ident db)).db ident
            Status.completed_with_errors
            (some (runLoop ident env (engineCollections ident db)).stats) := by
      simp [processUserDeletion, hsave, hnotEmpty]
    have hafter : (processColl ident env c).after
        = ⟨c.name, c.docs.filter (fun d => !(matchesIdentity ident d))⟩ :=
      processColl_after_benign ident env c hcskip
        (contains_eq_false_of_all hq hcne) (contains_eq_false_of_all hd hcne)
    have hfiltered : ∀ d ∈ c.docs.filter (fun d => !(matchesIdentity ident d)),
        logMatches ident d = false := by
      intro d hdmem
      obtain ⟨_, hdm⟩ := List.mem_filter.mp hdmem
      cases hl : logMatches ident d with
      | false => rfl
      | true =>
          have hmi := matchesIdentity_of_logMatches ident d hl
          rw [hmi] at hdm
          simp at hdm
    rw [hdb, runLoop_db_eq]
    unfold finalizeLog
    apply mem_updateInColl_of
    · exact List.mem_map.mpr ⟨c, hcmem, hafter⟩
    · exact hfiltered

/-- Witness for C3: with only the find on `orders` throwing, the run
over `orders` and `posts` records the single error for `orders`,
finishes `completed_with_errors`, and still purges the matching
document from `posts`. -/
theorem isolation_single_failure_witness :
    (processUserDeletion identA envQueryFailsOrders dbTwoColls).stats.errors
        = [⟨"orders", "boom"⟩] ∧
    (processUserDeletion identA envQueryFailsOrders dbTwoColls).writtenStatus
        = .completed_with_errors ∧
    (⟨"posts", []⟩ : Collection)
        ∈ (processUserDeletion identA envQueryFailsOrders dbTwoColls).db := by
  have h := isolation_single_failure identA envQueryFailsOrders dbTwoColls "orders"
    rfl (by decide) (by decide) (by decide) (by decide) (by decide) (Or.inl (by decide))
  refine ⟨h.1, h.2.1, ?_⟩
  have h3 := h.2.2 ⟨"posts", [{ username := some "u" }]⟩ (by decide) (by decide) (by decide)
  have hfe : ([{ username := some "u" }] : List Doc).filter
      (fun d => !(matchesIdentity identA d)) = [] := by decide
  rw [hfe] at h3
  exact h3
